import Mathlib

/-!
# mdus: request hand-off, protocol handler, statistics and startup

A shallow embedding of `src/mdus.c`, `src/util.c` and the thread-creation
step of `src/main.c`, followed by the properties established about them.

Pointers to `struct evhttp_request` are natural numbers, `0` being `NULL`.
The array `queue.active_request` is a map from C indices to pointers: the
indices `0 .. REQUEST_QUEUE_SIZE - 1` are the array, every other index is
the memory a C index expression would address outside the array.
-/

namespace Mdus

/-! ## The request queue (`src/mdus.c`, lines 21-52 and 75-79) -/

/-- Pointer to a `struct evhttp_request`; `0` is `NULL`. -/
abbrev evhttp_request_ptr := Nat

/-- The null pointer. -/
def NULL : evhttp_request_ptr := 0

/-- The macro `REQUEST_QUEUE_SIZE`, defined as 16. -/
def REQUEST_QUEUE_SIZE : Int := 16

/-- The type `struct request_queue`: the index `top` and the array
`active_request` of `REQUEST_QUEUE_SIZE` request pointers. -/
structure request_queue where
  top : Int
  active_request : Int → evhttp_request_ptr

/-- The initialiser `queue = {-1}`: `top` is `-1`, every slot is `NULL`. -/
def queue_init : request_queue :=
  { top := -1, active_request := fun _ => NULL }

/-- The assignment `a[i] = v`. -/
def store (a : Int → evhttp_request_ptr) (i : Int) (v : evhttp_request_ptr) :
    Int → evhttp_request_ptr :=
  fun j => if j = i then v else a j

/-- The function `enqueue_request` (lines 36-52). The result is the queue afterwards and
whether the accepting branch ran, that is whether `request_pending_cond`
was signalled (`false`: the overflow branch returned early). -/
def enqueue_request (q : request_queue) (req : evhttp_request_ptr) :
    request_queue × Bool :=
  if q.top < REQUEST_QUEUE_SIZE then
    let top1 := q.top + 1
    ({ top := top1, active_request := store q.active_request top1 req }, true)
  else
    (q, false)

/-- The wake-up test of a worker (line 69):
`queue.top != -1 && queue.active_request[queue.top] != NULL`. -/
def request_available (q : request_queue) : Bool :=
  q.top != -1 && q.active_request q.top != NULL

/-- The pop of a worker (lines 76-78): the claimed request and the queue
afterwards. -/
def pop_request (q : request_queue) : evhttp_request_ptr × request_queue :=
  (q.active_request q.top,
   { top := q.top - 1, active_request := store q.active_request q.top NULL })

/-- One claim of a single worker: the wake-up test of line 69 followed by
the pop of lines 75-79; `none` when the test fails (the worker waits). -/
def claim_request (q : request_queue) : Option (evhttp_request_ptr × request_queue) :=
  if request_available q then some (pop_request q) else none

/-- Calls of `enqueue_request`, one per request, in order: the final queue
and, per request, whether it was accepted. -/
def enqueue_all : request_queue → List evhttp_request_ptr → request_queue × List Bool
  | q, [] => (q, [])
  | q, r :: rs =>
    let next := enqueue_request q r
    let rest := enqueue_all next.1 rs
    (rest.1, next.2 :: rest.2)

/-- The pop of lines 76-78 performed `k` times: the requests in claim order
and the queue afterwards. -/
def pop_requests : Nat → request_queue → List evhttp_request_ptr × request_queue
  | 0, q => ([], q)
  | k + 1, q =>
    let first := pop_request q
    let rest := pop_requests k first.2
    (first.1 :: rest.1, rest.2)

/-- The claim of a single worker performed `k` times; `none` as soon as one
wake-up test fails. -/
def claim_requests : Nat → request_queue → Option (List evhttp_request_ptr × request_queue)
  | 0, q => some ([], q)
  | k + 1, q =>
    match claim_request q with
    | none => none
    | some first =>
      match claim_requests k first.2 with
      | none => none
      | some rest => some (first.1 :: rest.1, rest.2)

/-- A step on the queue: the acceptor enqueues a request, or a worker
claims one. -/
inductive queue_step : request_queue → request_queue → Prop
  | enqueue (q : request_queue) (req : evhttp_request_ptr) :
      queue_step q (enqueue_request q req).1
  | claim (q : request_queue) (r : evhttp_request_ptr) (q1 : request_queue) :
      claim_request q = some (r, q1) → queue_step q q1

/-- The queues reachable from `queue_init` by enqueue and claim steps. -/
inductive reachable : request_queue → Prop
  | init : reachable queue_init
  | step (q q1 : request_queue) : reachable q → queue_step q q1 → reachable q1

/-- The queue `q` after `n` accepted requests were pushed on it and popped
again: `top` is back at `q.top` and the slots used in between are `NULL`. -/
def drained (q : request_queue) (n : Nat) : request_queue :=
  { top := q.top,
    active_request := fun i => if q.top < i ∧ i ≤ q.top + n then NULL else q.active_request i }

/-- The requests `1, 2, ..., n` (all non-null). -/
def sample_requests (n : Nat) : List evhttp_request_ptr :=
  (List.range n).map (fun i => i + 1)

/-! ## Session statistics (`src/util.c`, lines 29-61) -/

/-- Widths in bits of the two counter types: `size_t` (`atomic_size_t`) and
`uint_fast32_t` (`atomic_uint_fast32_t`); both are at least 32 bits wide on
every platform the program builds on. -/
structure platform where
  size_bits : Nat
  fast32_bits : Nat
  size_bits_ge : 32 ≤ size_bits
  fast32_bits_ge : 32 ≤ fast32_bits

/-- The LP64 platform with a 64-bit `uint_fast32_t` (glibc on x86-64). -/
def lp64 : platform :=
  { size_bits := 64, fast32_bits := 64, size_bits_ge := by decide, fast32_bits_ge := by decide }

/-- The type `struct session_stats`. -/
structure session_stats where
  sent : Nat
  received : Nat
  requests : Nat
  responses : Nat
  deriving DecidableEq, Repr

/-- The function `init_session_logging`: the four `atomic_init(.., 0)`. -/
def init_session_logging (_ : session_stats) : session_stats :=
  { sent := 0, received := 0, requests := 0, responses := 0 }

/-- One `atomic_fetch_add` on a field of `stats`. -/
inductive atomic_op where
  | add_requests (n : Nat)
  | add_received (n : Nat)
  | add_responses (n : Nat)
  | add_sent (n : Nat)
  deriving DecidableEq, Repr

/-- The effect of one `atomic_fetch_add`: unsigned addition in the width of
the field. -/
def atomic_fetch_add (p : platform) (s : session_stats) : atomic_op → session_stats
  | .add_requests n => { s with requests := (s.requests + n) % 2 ^ p.fast32_bits }
  | .add_received n => { s with received := (s.received + n) % 2 ^ p.size_bits }
  | .add_responses n => { s with responses := (s.responses + n) % 2 ^ p.fast32_bits }
  | .add_sent n => { s with sent := (s.sent + n) % 2 ^ p.size_bits }

/-- The atomic operations of one call `record_exchange(is_request, bytes)`,
in program order (lines 53-61). -/
def record_exchange_ops (is_request : Bool) (bytes : Nat) : List atomic_op :=
  if is_request then
    [.add_requests 1, .add_received bytes]
  else
    [.add_responses 1, .add_sent bytes]

/-- A schedule of atomic operations applied one after the other. -/
def run_ops (p : platform) (s : session_stats) (ops : List atomic_op) : session_stats :=
  ops.foldl (atomic_fetch_add p) s

/-- The function `record_exchange` (lines 53-61). -/
def record_exchange (p : platform) (is_request : Bool) (bytes : Nat)
    (s : session_stats) : session_stats :=
  run_ops p s (record_exchange_ops is_request bytes)

/-- Calls `record_exchange(true, b)`, one per element `b` of `bs`, one
after the other. -/
def record_requests (p : platform) (s : session_stats) (bs : List Nat) : session_stats :=
  bs.foldl (fun acc b => record_exchange p true b acc) s

/-- What an atomic operation adds to `stats.requests`. -/
def requests_added : atomic_op → Nat
  | .add_requests n => n
  | _ => 0

/-- The atomic operations that `record_exchange(true, _)` performs. -/
def is_request_op : atomic_op → Bool
  | .add_requests _ => true
  | .add_received _ => true
  | _ => false

/-! ## The protocol handler (`src/mdus.c`, lines 90-217) -/

/-- The type `enum evhttp_cmd_type` of libevent. -/
inductive evhttp_cmd_type where
  | GET | POST | HEAD | PUT | DELETE | OPTIONS | TRACE | CONNECT | PATCH
  deriving DecidableEq, Repr

/-- What `handle_request` reads from a `struct evhttp_request`: the command,
the URI and the bytes of the input buffer. -/
structure evhttp_request where
  method : evhttp_cmd_type
  uri : List Char
  input : List Nat

/-- The answers of the file system and of libevent to the calls
`handle_request` makes on them. -/
structure environment where
  /-- whether `access(target, R_OK) == 0` -/
  readable : Bool
  /-- the bytes of the file `fopen(target, "r")` opens -/
  file : List Nat
  /-- whether `evbuffer_add_file_segment(..) == -1` -/
  add_file_segment_fails : Bool
  /-- whether `fopen(target, "w") == NULL` -/
  fopen_write_fails : Bool
  /-- whether `evbuffer_write_atmost(..) == -1` -/
  write_fails : Bool

/-- The arguments of the one `evhttp_send_reply` call together with the
output headers added before it; `body` is the content of the buffer passed
(empty for `NULL`). -/
structure reply where
  status : Nat
  reason : String
  headers : List (String × String)
  body : List Nat
  deriving DecidableEq, Repr

/-- The state after `handle_request`: the reply sent, the statistics, the
content of the target file when `fopen(target, "w")` opened it (empty when
the write failed) and whether `fclose` ran. -/
structure handled where
  sent_reply : reply
  stats : session_stats
  written : Option (List Nat)
  closed : Bool
  deriving DecidableEq, Repr

/-- The macro `MESSAGE_MAX_SIZE`, defined as `100000 * sizeof(char)`. -/
def MESSAGE_MAX_SIZE : Nat := 100000 * 1

/-- The macro `FILESIZE_STRING_MAX_LENGTH`, defined as 8. -/
def FILESIZE_STRING_MAX_LENGTH : Nat := 8

/-- The bytes of a C string literal: its characters and the terminating NUL. -/
def c_string (s : String) : List Nat :=
  s.toList.map Char.toNat ++ [0]

/-- The constant `ISALIVE_MESSAGE`, the string literal `true`. -/
def ISALIVE_MESSAGE : List Nat := c_string "true"

/-- The constant `ISALIVE_MESSAGE_LEN`, 5. -/
def ISALIVE_MESSAGE_LEN : Nat := 5

/-- The constant `FILEDIR_LEN`, the length of the string `files/`. -/
def FILEDIR_LEN : Nat := "files/".length

/-- The test `strncmp(a, b, n) == 0` on strings without embedded NUL. -/
def strncmp_eq (a b : List Char) (n : Nat) : Bool :=
  a.take n == b.take n

/-- The call `evbuffer_add(buf, data, datlen)`: appends the first `datlen`
bytes at `data`. -/
def evbuffer_add (buf data : List Nat) (datlen : Nat) : List Nat :=
  buf ++ data.take datlen

/-- The call `snprintf(dst, size, "%zu", value)`: the characters stored in
`dst` before the terminating NUL, at most `size - 1` of them. -/
def snprintf_zu (size : Nat) (value : Nat) : List Char :=
  (Nat.toDigits 10 value).take (size - 1)

/-- The function `get_filesize_as_string` (lines 211-217) on a file of
`file_size` bytes: `ftell` at the end of the file gives `file_size`, cast to
`size_t` and printed into the buffer of `FILESIZE_STRING_MAX_LENGTH` bytes. -/
def get_filesize_as_string (p : platform) (file_size : Nat) : String :=
  let size := file_size % 2 ^ p.size_bits
  String.mk (snprintf_zu FILESIZE_STRING_MAX_LENGTH size)

/-- The headers every response carries (lines 109-110). -/
def common_headers : List (String × String) :=
  [("Access-Control-Allow-Origin", "*"), ("Server", "Miraculin–Daemon Unciv Server")]

/-- The function `use_empty_response` (lines 189-209): records the response
with 0 bytes and sends the reply the `switch` selects, with a `NULL` body.
The result is the statistics afterwards, the status and the reason phrase. -/
def use_empty_response (p : platform) (stats : session_stats) (status : Nat) :
    session_stats × Nat × String :=
  let stats1 := record_exchange p false 0 stats
  if status = 405 then (stats1, 405, "Method Not Allowed")
  else if status = 404 then (stats1, 404, "Not Found")
  else if status = 403 then (stats1, 403, "Forbidden")
  else if status = 500 then (stats1, 500, "Internal Error")
  else (stats1, 500, "Internal Error")

/-- The call `use_empty_response(req, status)` followed by the code from the
label `response_done` on (lines 181-187); `opened` tells whether
`requested_fp` is not `NULL`. -/
def reject (p : platform) (stats : session_stats) (bytes_received : Nat)
    (headers : List (String × String)) (status : Nat) (written : Option (List Nat))
    (opened : Bool) : handled :=
  let r := use_empty_response p stats status
  { sent_reply := { status := r.2.1, reason := r.2.2, headers := headers, body := [] },
    stats := record_exchange p true bytes_received r.1,
    written := written,
    closed := opened }

/-- Lines 179-187: the reply `200 OK` with the response buffer; `opened`
tells whether `requested_fp` is not `NULL`. -/
def accept (p : platform) (stats : session_stats) (bytes_received : Nat)
    (headers : List (String × String)) (response : List Nat)
    (written : Option (List Nat)) (opened : Bool) : handled :=
  let stats1 := record_exchange p false (response.length % 2 ^ p.size_bits) stats
  { sent_reply := { status := 200, reason := "OK", headers := headers, body := response },
    stats := record_exchange p true bytes_received stats1,
    written := written,
    closed := opened }

/-- The function `handle_request` (lines 90-187): `env` holds the answers of
the file system, `stats` the statistics before the call. -/
def handle_request (p : platform) (env : environment) (stats : session_stats)
    (req : evhttp_request) : handled :=
  let bytes_received := req.input.length % 2 ^ p.size_bits
  let target := match req.uri with
    | [] => []
    | _ :: rest => rest
  let headers := common_headers
  if req.method = .GET then
    if target = "isalive".toList then
      let headers1 := headers ++ [("Content-Type", "text/plain"), ("Content-Length", "4")]
      let response := evbuffer_add [] ISALIVE_MESSAGE ISALIVE_MESSAGE_LEN
      accept p stats bytes_received headers1 response none false
    else if strncmp_eq target "files/".toList FILEDIR_LEN then
      if !env.readable then
        reject p stats bytes_received headers 404 none false
      else
        let headers1 := headers ++ [("Content-Type", "text/plain"),
          ("Content-Length", get_filesize_as_string p env.file.length)]
        if env.add_file_segment_fails then
          reject p stats bytes_received headers1 404 none true
        else
          accept p stats bytes_received headers1 env.file none true
    else
      reject p stats bytes_received headers 404 none false
  else if req.method = .PUT then
    if bytes_received ≤ 0 then
      reject p stats bytes_received headers 400 none false
    else if strncmp_eq target "files/".toList FILEDIR_LEN then
      if env.fopen_write_fails then
        reject p stats bytes_received headers 500 none false
      else if env.write_fails then
        reject p stats bytes_received headers 500 (some []) true
      else
        accept p stats bytes_received headers [] (some (req.input.take MESSAGE_MAX_SIZE)) true
    else
      reject p stats bytes_received headers 403 none false
  else
    reject p stats bytes_received headers 405 none false

/-- The exchange of a request with `n` body bytes is recorded once in
`h.stats`, starting from `stats`: 1 more request, `n` more bytes received,
1 more response, as many more bytes sent as the response body is long (all
in the unsigned arithmetic of the counters), and the body is empty unless
the status is 200. -/
def exchange_recorded (p : platform) (stats : session_stats) (n : Nat) (h : handled) : Prop :=
  h.stats.requests = (stats.requests + 1) % 2 ^ p.fast32_bits ∧
    h.stats.received = (stats.received + n) % 2 ^ p.size_bits ∧
    h.stats.responses = (stats.responses + 1) % 2 ^ p.fast32_bits ∧
    h.stats.sent = (stats.sent + h.sent_reply.body.length) % 2 ^ p.size_bits ∧
    (h.sent_reply.status ≠ 200 → h.sent_reply.body = [])

/-! ## Thread creation in `main` (`src/main.c`, lines 92-121 and 188-218) -/

/-- The loop of `init_threads` (lines 189-191) from index `i` with
`remaining` iterations to go; `create i` is the value the `i`-th
`pthread_create` returns. The result is the index of the first failing
call, `none` when every call succeeded. -/
def create_threads (create : Nat → Int) : Nat → Nat → Option Nat
  | 0, _ => none
  | remaining + 1, i =>
    if create i != 0 then some i else create_threads create remaining (i + 1)

/-- The test `pool_ready_count >= pool_size` of `is_pool_ready`. -/
def is_pool_ready (pool_size pool_ready_count : Int) : Bool :=
  pool_ready_count >= pool_size

/-- The wait loop of `init_threads` (lines 194-195); the list holds the
values of `pool_ready_count` at the successive tests. The result is
`false` when no test succeeds: the thread waits for ever. -/
def wait_pool_ready (pool_size : Int) : List Int → Bool
  | [] => false
  | count :: later =>
    if !is_pool_ready pool_size count then wait_pool_ready pool_size later else true

/-- The function `init_threads` (lines 188-199): the value returned and the number of
threads created; `none` when it never returns. -/
def init_threads (pool_size : Int) (create : Nat → Int) (ready_counts : List Int) :
    Option (Int × Nat) :=
  match create_threads create pool_size.toNat 0 with
  | some i => some (-1, i)
  | none => if wait_pool_ready pool_size ready_counts then some (0, pool_size.toNat) else none

/-- How `main` ends, seen from its thread-creation step. -/
inductive main_outcome where
  /-- the function returned `value`; `dispatched` tells whether
  `event_base_dispatch` was called, `threads` how many workers existed. -/
  | returned (value : Int) (dispatched : Bool) (threads : Nat)
  /-- the function waits for ever inside `init_threads` -/
  | blocked
  deriving DecidableEq, Repr

/-- Lines 92-121 of `main`: `dry` is `flags & MDUS_DRY`. -/
def main_from_thread_creation (pool_size : Int) (dry : Bool) (create : Nat → Int)
    (ready_counts : List Int) : main_outcome :=
  match init_threads pool_size create ready_counts with
  | none => .blocked
  | some (result, threads) =>
    if result == 0 then
      .returned (-1) false threads
    else if dry then
      .returned 0 false threads
    else
      .returned 0 true threads

/-! ## The worker (`src/mdus.c`, lines 54-88) -/

/-- The mutexes of `src/main.c`. -/
inductive mutex where
  | active_request_lock
  | request_pending_lock
  | pool_ready_lock
  deriving DecidableEq, Repr

/-- The program points of `start_request_handler`, named by source line. -/
inductive label where
  /-- line 58: `pthread_mutex_lock(&request_pending_lock)` -/
  | L58
  /-- line 59: `while (!quit_requested)` -/
  | L59
  /-- lines 61-62: `if (!init_done)` and `init_done = true` -/
  | L61
  /-- line 63: `pthread_mutex_lock(&pool_ready_lock)` -/
  | L63
  /-- lines 64-65: `++pool_ready_count` and the broadcast -/
  | L64
  /-- line 66: `pthread_mutex_unlock(&pool_ready_lock)` -/
  | L66
  /-- line 68, `pthread_cond_wait`: the mutex is released and the thread sleeps -/
  | L68
  /-- line 68, `pthread_cond_wait`: the thread wakes and takes the mutex again -/
  | L68_wake
  /-- line 69: `if (queue.top != -1 && ...) break` -/
  | L69
  /-- line 72: `pthread_mutex_unlock(&request_pending_lock)` -/
  | L72
  /-- line 73: `if (quit_requested) break` -/
  | L73
  /-- line 75: `pthread_mutex_lock(&active_request_lock)` -/
  | L75
  /-- the pop of lines 76-78 -/
  | L76
  /-- line 79: `pthread_mutex_unlock(&active_request_lock)` inside the loop -/
  | L79
  /-- line 82: `handle_request(thread_request)` -/
  | L82
  /-- line 86: `pthread_mutex_unlock(&active_request_lock)` after the loop -/
  | L86
  /-- line 87: `return NULL`, the worker has ended -/
  | L87
  deriving DecidableEq, Repr

/-- What a worker does to the outside, in the order it does it. -/
inductive event where
  | lock (m : mutex)
  | unlock (m : mutex)
  | announce_ready
  | pop (req : evhttp_request_ptr)
  | handle (req : evhttp_request_ptr)
  deriving DecidableEq, Repr

/-- The variables shared by the threads. -/
structure shared where
  queue : request_queue
  quit_requested : Bool
  pool_ready_count : Int

/-- The state of one worker: program point, locals, the mutexes it holds
and its events so far (latest first). -/
structure worker where
  pc : label
  init_done : Bool
  thread_request : evhttp_request_ptr
  held : List mutex
  trace : List event
  deriving DecidableEq, Repr

/-- A worker entering `start_request_handler`. -/
def worker_init : worker :=
  { pc := .L58, init_done := false, thread_request := NULL, held := [], trace := [] }

/-- The worker takes mutex `m` and goes on at `next`. -/
def do_lock (w : worker) (m : mutex) (next : label) : worker :=
  { w with pc := next, held := m :: w.held, trace := .lock m :: w.trace }

/-- The worker calls `pthread_mutex_unlock` on `m` and goes on at `next`. -/
def do_unlock (w : worker) (m : mutex) (next : label) : worker :=
  { w with pc := next, held := w.held.erase m, trace := .unlock m :: w.trace }

/-- One step of `start_request_handler` from the program point `w.pc`. -/
def worker_step (g : shared) (w : worker) : shared × worker :=
  match w.pc with
  | .L58 => (g, do_lock w .request_pending_lock .L59)
  | .L59 => if !g.quit_requested then (g, { w with pc := .L61 }) else (g, { w with pc := .L72 })
  | .L61 =>
    if !w.init_done then (g, { w with pc := .L63, init_done := true })
    else (g, { w with pc := .L68 })
  | .L63 => (g, do_lock w .pool_ready_lock .L64)
  | .L64 =>
    ({ g with pool_ready_count := g.pool_ready_count + 1 },
     { w with pc := .L66, trace := .announce_ready :: w.trace })
  | .L66 => (g, do_unlock w .pool_ready_lock .L68)
  | .L68 => (g, do_unlock w .request_pending_lock .L68_wake)
  | .L68_wake => (g, do_lock w .request_pending_lock .L69)
  | .L69 =>
    if request_available g.queue then (g, { w with pc := .L72 })
    else (g, { w with pc := .L59 })
  | .L72 => (g, do_unlock w .request_pending_lock .L73)
  | .L73 => if g.quit_requested then (g, { w with pc := .L86 }) else (g, { w with pc := .L75 })
  | .L75 => (g, do_lock w .active_request_lock .L76)
  | .L76 =>
    let popped := pop_request g.queue
    ({ g with queue := popped.2 },
     { w with pc := .L79, thread_request := popped.1, trace := .pop popped.1 :: w.trace })
  | .L79 => (g, do_unlock w .active_request_lock .L82)
  | .L82 => (g, { w with pc := .L58, trace := .handle w.thread_request :: w.trace })
  | .L86 => (g, do_unlock w .active_request_lock .L87)
  | .L87 => (g, w)

/-- The worker runs `n` steps on its own. -/
def worker_run : Nat → shared × worker → shared × worker
  | 0, c => c
  | n + 1, c => worker_run n (worker_step c.1 c.2)

/-- The events in which a worker claims from the buffer or serves a
request. -/
def claims_or_serves : event → Bool
  | .pop _ => true
  | .handle _ => true
  | _ => false

/-- The program points of a worker on its way out once `quit_requested` is
set: the wake-up test, the loop condition, the unlock after the loop, the
test of line 73, the final unlock and the return. -/
def exit_path : label → Bool
  | .L69 => true
  | .L59 => true
  | .L72 => true
  | .L73 => true
  | .L86 => true
  | .L87 => true
  | _ => false

/-- An upper bound on the number of steps from a program point of
`exit_path` to the return when `quit_requested` is set. -/
def exit_rank : label → Nat
  | .L69 => 5
  | .L59 => 4
  | .L72 => 3
  | .L73 => 2
  | .L86 => 1
  | _ => 0

/-- The mutex passed to `pthread_mutex_unlock` by the statement at a
program point of `start_request_handler` (lines 66, 72, 79 and 86); `none`
where the statement is no `pthread_mutex_unlock`. -/
def unlocked_at : label → Option mutex
  | .L66 => some .pool_ready_lock
  | .L72 => some .request_pending_lock
  | .L79 => some .active_request_lock
  | .L86 => some .active_request_lock
  | _ => none

/-- The worker states that occur: the worker starts in `worker_init` and
takes steps, each against whatever the shared variables are at the time. -/
inductive worker_reachable : worker → Prop
  | init : worker_reachable worker_init
  | step (g : shared) (w : worker) :
      worker_reachable w → worker_reachable (worker_step g w).2

/-- The mutexes a worker holds on arrival at a program point, latest
first. -/
def held_at : label → List mutex
  | .L58 => []
  | .L59 => [.request_pending_lock]
  | .L61 => [.request_pending_lock]
  | .L63 => [.request_pending_lock]
  | .L64 => [.pool_ready_lock, .request_pending_lock]
  | .L66 => [.pool_ready_lock, .request_pending_lock]
  | .L68 => [.request_pending_lock]
  | .L68_wake => []
  | .L69 => [.request_pending_lock]
  | .L72 => [.request_pending_lock]
  | .L73 => []
  | .L75 => []
  | .L76 => [.active_request_lock]
  | .L79 => [.active_request_lock]
  | .L82 => []
  | .L86 => []
  | .L87 => []

/-- The shared variables at shutdown with an empty buffer:
`quit_requested` is set. -/
def shared_at_shutdown : shared :=
  { queue := queue_init, quit_requested := true, pool_ready_count := 0 }

/-! # Theorems -/

/-! ## The request queue -/

theorem pop_requests_succ (k : Nat) (q : request_queue) :
    pop_requests (k + 1) q =
      ((pop_requests k q).1 ++ [(pop_request (pop_requests k q).2).1],
       (pop_request (pop_requests k q).2).2) := by
  induction k generalizing q with
  | zero => simp [pop_requests]
  | succ k ih =>
    rw [pop_requests, ih (pop_request q).2]
    simp [pop_requests]

theorem claim_requests_succ (k : Nat) (q : request_queue)
    (claimed : List evhttp_request_ptr) (q1 : request_queue)
    (h : claim_requests k q = some (claimed, q1)) (hav : request_available q1 = true) :
    claim_requests (k + 1) q = some (claimed ++ [(pop_request q1).1], (pop_request q1).2) := by
  induction k generalizing q claimed with
  | zero =>
    simp [claim_requests] at h
    obtain ⟨h1, h2⟩ := h
    subst h1; subst h2
    simp [claim_requests, claim_request, hav]
  | succ k ih =>
    rw [claim_requests] at h
    cases hq : claim_request q with
    | none => simp [hq] at h
    | some first =>
      simp only [hq] at h
      cases hr : claim_requests k first.2 with
      | none => simp [hr] at h
      | some rest =>
        obtain ⟨rl, rq⟩ := rest
        simp only [hr] at h
        simp at h
        obtain ⟨h1, h2⟩ := h
        subst h2
        have h3 := ih first.2 rl hr
        rw [claim_requests]
        simp only [hq, h3]
        simp [← h1]

theorem enqueue_request_accepts (q : request_queue) (req : evhttp_request_ptr)
    (h : q.top < 16) :
    enqueue_request q req =
      ({ top := q.top + 1, active_request := store q.active_request (q.top + 1) req }, true) := by
  simp [enqueue_request, REQUEST_QUEUE_SIZE, h]

theorem enqueue_all_accepts (rs : List evhttp_request_ptr) (q : request_queue)
    (h : q.top + rs.length ≤ 16) :
    (enqueue_all q rs).2 = List.replicate rs.length true ∧
      (enqueue_all q rs).1.top = q.top + rs.length := by
  induction rs generalizing q with
  | nil => simp [enqueue_all]
  | cons r rs ih =>
    simp only [List.length_cons, Nat.cast_add, Nat.cast_one] at h
    have hq : q.top < 16 := by omega
    simp only [enqueue_all, enqueue_request_accepts q r hq]
    have := ih { top := q.top + 1, active_request := store q.active_request (q.top + 1) r }
      (by simp only; omega)
    simp only [List.length_cons, List.replicate_succ, this.1, this.2, Nat.cast_add, Nat.cast_one]
    constructor
    · trivial
    · omega

theorem drained_zero (q : request_queue) : drained q 0 = q := by
  cases q with
  | mk top active_request =>
    simp only [drained, request_queue.mk.injEq, true_and]
    funext i
    have : ¬ (top < i ∧ i ≤ top + ((0 : Nat) : Int)) := by omega
    simp [this]

theorem pop_enqueue_all (rs : List evhttp_request_ptr) (q : request_queue)
    (h : q.top + rs.length ≤ 16) :
    pop_requests rs.length (enqueue_all q rs).1 = (rs.reverse, drained q rs.length) := by
  induction rs generalizing q with
  | nil =>
    simp [enqueue_all, pop_requests, drained_zero]
  | cons r rs ih =>
    simp only [List.length_cons, Nat.cast_add, Nat.cast_one] at h
    have hq : q.top < 16 := by omega
    simp only [enqueue_all, enqueue_request_accepts q r hq, List.length_cons]
    rw [pop_requests_succ, ih _ (by simp only; omega)]
    simp only [pop_request, drained, List.reverse_cons, Prod.mk.injEq]
    refine ⟨?_, ?_⟩
    · simp [store]
    · simp only [request_queue.mk.injEq]
      refine ⟨by omega, ?_⟩
      funext i
      simp only [store, Nat.cast_add, Nat.cast_one]
      by_cases h1 : i = q.top + 1
      · subst h1
        simp
      · simp only [h1, if_false]
        by_cases h2 : q.top + 1 < i ∧ i ≤ q.top + 1 + rs.length
        · have h3 : q.top < i ∧ i ≤ q.top + (rs.length + 1) := by omega
          simp [h2, h3]
        · have h3 : ¬ (q.top < i ∧ i ≤ q.top + (rs.length + 1)) := by omega
          simp [h2, h3]

theorem claim_enqueue_all (rs : List evhttp_request_ptr) (q : request_queue)
    (hlow : -1 ≤ q.top) (h : q.top + rs.length ≤ 16) (hnull : ∀ r ∈ rs, r ≠ NULL) :
    claim_requests rs.length (enqueue_all q rs).1 = some (rs.reverse, drained q rs.length) := by
  induction rs generalizing q with
  | nil =>
    simp [enqueue_all, claim_requests, drained_zero]
  | cons r rs ih =>
    simp only [List.length_cons, Nat.cast_add, Nat.cast_one] at h
    have hq : q.top < 16 := by omega
    have hr : r ≠ NULL := hnull r (by simp)
    simp only [enqueue_all, enqueue_request_accepts q r hq, List.length_cons]
    have ih1 := ih { top := q.top + 1, active_request := store q.active_request (q.top + 1) r }
      (by simp only; omega) (by simp only; omega) (fun x hx => hnull x (by simp [hx]))
    have hav : request_available
        (drained { top := q.top + 1, active_request := store q.active_request (q.top + 1) r }
          rs.length) = true := by
      simp only [request_available, drained, store]
      have : q.top + 1 ≠ -1 := by omega
      simp [this, hr]
    rw [claim_requests_succ _ _ _ _ ih1 hav]
    have hp := pop_enqueue_all (r :: rs) q
      (by simp only [List.length_cons, Nat.cast_add, Nat.cast_one]; omega)
    simp only [enqueue_all, enqueue_request_accepts q r hq, List.length_cons] at hp
    rw [pop_requests_succ, pop_enqueue_all rs _ (by simp only; omega)] at hp
    rw [hp]

theorem drained_queue_init (n : Nat) : drained queue_init n = queue_init := by
  simp only [drained, queue_init, request_queue.mk.injEq, true_and]
  funext i
  simp

theorem reachable_enqueue_all (rs : List evhttp_request_ptr) (q : request_queue)
    (h : reachable q) : reachable (enqueue_all q rs).1 := by
  induction rs generalizing q with
  | nil => simpa [enqueue_all] using h
  | cons r rs ih =>
    simp only [enqueue_all]
    exact ih _ (reachable.step q _ h (queue_step.enqueue q r))

theorem reachable_top_range (q : request_queue) (h : reachable q) :
    -1 ≤ q.top ∧ q.top ≤ REQUEST_QUEUE_SIZE := by
  induction h with
  | init => simp [queue_init, REQUEST_QUEUE_SIZE]
  | step q q1 _ hstep ih =>
    cases hstep with
    | enqueue req =>
      simp only [enqueue_request, REQUEST_QUEUE_SIZE] at ih ⊢
      by_cases hlt : q.top < 16
      · simp only [hlt, if_true]
        omega
      · simp only [hlt, if_false]
        omega
    | claim r q2 hc =>
      simp only [claim_request, request_available, pop_request, REQUEST_QUEUE_SIZE] at hc ih ⊢
      by_cases hne : q.top = -1
      · simp [hne] at hc
      · by_cases hav : q.active_request q.top = NULL
        · simp [hav] at hc
        · simp [hne, hav] at hc
          rw [← hc.2]
          simp only
          omega

/-- C1 (behaviour of the code at the claimed capacity): in every buffer
state that already holds 16 pending requests (`top == 15`),
`enqueue_request` takes the accepting branch: it signals a worker, sets
`top` to 16 and writes the request at index 16, one past the last slot of
`active_request`. The request is not rejected and the state is changed. -/
theorem enqueue_request_at_capacity_accepts (q : request_queue) (req : evhttp_request_ptr)
    (h : q.top = REQUEST_QUEUE_SIZE - 1) :
    (enqueue_request q req).2 = true ∧
      (enqueue_request q req).1.top = REQUEST_QUEUE_SIZE ∧
      (enqueue_request q req).1.active_request REQUEST_QUEUE_SIZE = req ∧
      (enqueue_request q req).1 ≠ q := by
  have hq : q.top < 16 := by
    simp only [REQUEST_QUEUE_SIZE] at h
    omega
  rw [enqueue_request_accepts q req hq]
  simp only [REQUEST_QUEUE_SIZE] at h ⊢
  refine ⟨trivial, by omega, ?_, ?_⟩
  · simp [store, h]
  · intro heq
    have := congrArg request_queue.top heq
    simp only at this
    omega

/-- Seventeen requests enqueued on the empty buffer: the first sixteen fill
it (`top == 15`) and the seventeenth is accepted as well, so that all 17
are accepted, none is rejected and `top` is 16. -/
theorem enqueue_request_at_capacity_accepts_witness :
    (enqueue_all queue_init (sample_requests 16)).1.top = REQUEST_QUEUE_SIZE - 1 ∧
      ((enqueue_request (enqueue_all queue_init (sample_requests 16)).1 17).2 = true ∧
        (enqueue_request (enqueue_all queue_init (sample_requests 16)).1 17).1.top
          = REQUEST_QUEUE_SIZE ∧
        (enqueue_request (enqueue_all queue_init (sample_requests 16)).1 17).1.active_request
          REQUEST_QUEUE_SIZE = 17 ∧
        (enqueue_request (enqueue_all queue_init (sample_requests 16)).1 17).1
          ≠ (enqueue_all queue_init (sample_requests 16)).1) ∧
      (enqueue_all queue_init (sample_requests 17)).2 = List.replicate 17 true :=
  ⟨by decide,
   enqueue_request_at_capacity_accepts (enqueue_all queue_init (sample_requests 16)).1 17
     (by decide),
   by decide⟩

/-- C2 (behaviour of the code): every queue reachable from the initial
buffer by enqueue and worker claim steps has `top` in `[-1, 16]`, and the
value 16, outside the claimed range `[-1, 15]`, is reached (by 17 enqueues
on the empty buffer). -/
theorem reachable_top_exceeds_capacity :
    (∀ q, reachable q → -1 ≤ q.top ∧ q.top ≤ REQUEST_QUEUE_SIZE) ∧
      reachable (enqueue_all queue_init (sample_requests 17)).1 ∧
      (enqueue_all queue_init (sample_requests 17)).1.top = 16 ∧
      ¬ (∀ q, reachable q → -1 ≤ q.top ∧ q.top ≤ REQUEST_QUEUE_SIZE - 1) := by
  have hr : reachable (enqueue_all queue_init (sample_requests 17)).1 :=
    reachable_enqueue_all _ _ reachable.init
  have ht : (enqueue_all queue_init (sample_requests 17)).1.top = 16 := by
    have h17 := (enqueue_all_accepts (sample_requests 17) queue_init
      (by simp [sample_requests, queue_init])).2
    simpa [sample_requests, queue_init] using h17
  refine ⟨reachable_top_range, hr, ht, ?_⟩
  intro hall
  have := (hall _ hr).2
  rw [ht] at this
  simp [REQUEST_QUEUE_SIZE] at this

/-- C3: for every list of at most 16 requests, enqueueing them in order on
the empty buffer accepts each of them, and popping as many times (lines
76-78) yields the requests in reverse order and leaves the buffer as it was
initially (`top == -1`, every slot `NULL`); when no request is the null
pointer the wake-up test of line 69 passes before each of these pops. -/
theorem lifo_hand_off (rs : List evhttp_request_ptr)
    (h : (rs.length : Int) ≤ REQUEST_QUEUE_SIZE) :
    (enqueue_all queue_init rs).2 = List.replicate rs.length true ∧
      (pop_requests rs.length (enqueue_all queue_init rs).1).1 = rs.reverse ∧
      (pop_requests rs.length (enqueue_all queue_init rs).1).2 = queue_init ∧
      (pop_requests rs.length (enqueue_all queue_init rs).1).2.top = -1 ∧
      ((∀ r ∈ rs, r ≠ NULL) →
        claim_requests rs.length (enqueue_all queue_init rs).1
          = some (rs.reverse, queue_init)) := by
  have hlen : queue_init.top + rs.length ≤ 16 := by
    simp only [REQUEST_QUEUE_SIZE] at h
    simp only [queue_init]
    omega
  have hpop := pop_enqueue_all rs queue_init hlen
  rw [drained_queue_init] at hpop
  refine ⟨(enqueue_all_accepts rs queue_init hlen).1, ?_, ?_, ?_, ?_⟩
  · rw [hpop]
  · rw [hpop]
  · rw [hpop]
    rfl
  · intro hnull
    have hc := claim_enqueue_all rs queue_init (by simp [queue_init]) hlen hnull
    rw [drained_queue_init] at hc
    exact hc

/-- Requests `R1 = 1`, `R2 = 2`, `R3 = 3` are claimed as `R3, R2, R1`. -/
theorem lifo_hand_off_witness :
    ((([1, 2, 3] : List evhttp_request_ptr).length : Int) ≤ REQUEST_QUEUE_SIZE) ∧
      (pop_requests 3 (enqueue_all queue_init [1, 2, 3]).1).1 = [3, 2, 1] ∧
      claim_requests 3 (enqueue_all queue_init [1, 2, 3]).1 = some ([3, 2, 1], queue_init) :=
  ⟨by decide,
   (lifo_hand_off [1, 2, 3] (by decide)).2.1,
   (lifo_hand_off [1, 2, 3] (by decide)).2.2.2.2 (by simp [NULL])⟩

/-! ## The protocol handler -/

theorem use_empty_response_stats (p : platform) (stats : session_stats) (status : Nat) :
    (use_empty_response p stats status).1 = record_exchange p false 0 stats := by
  simp only [use_empty_response]
  split_ifs <;> rfl

theorem record_exchange_request (p : platform) (n : Nat) (s : session_stats) :
    record_exchange p true n s =
      { s with requests := (s.requests + 1) % 2 ^ p.fast32_bits,
               received := (s.received + n) % 2 ^ p.size_bits } := by
  simp [record_exchange, record_exchange_ops, run_ops, atomic_fetch_add]

theorem record_exchange_response (p : platform) (n : Nat) (s : session_stats) :
    record_exchange p false n s =
      { s with responses := (s.responses + 1) % 2 ^ p.fast32_bits,
               sent := (s.sent + n) % 2 ^ p.size_bits } := by
  simp [record_exchange, record_exchange_ops, run_ops, atomic_fetch_add]

theorem reject_stats (p : platform) (stats : session_stats) (n : Nat)
    (headers : List (String × String)) (status : Nat) (written : Option (List Nat))
    (opened : Bool) :
    (reject p stats n headers status written opened).stats =
        { sent := (stats.sent + 0) % 2 ^ p.size_bits,
          received := (stats.received + n) % 2 ^ p.size_bits,
          requests := (stats.requests + 1) % 2 ^ p.fast32_bits,
          responses := (stats.responses + 1) % 2 ^ p.fast32_bits } ∧
      (reject p stats n headers status written opened).sent_reply.body = [] ∧
      (reject p stats n headers status written opened).sent_reply.status ≠ 200 := by
  refine ⟨?_, rfl, ?_⟩
  · simp only [reject, use_empty_response_stats, record_exchange_request,
      record_exchange_response]
  · simp only [reject, use_empty_response]
    split_ifs <;> simp

theorem accept_stats (p : platform) (stats : session_stats) (n : Nat)
    (headers : List (String × String)) (response : List Nat) (written : Option (List Nat))
    (opened : Bool) :
    (accept p stats n headers response written opened).stats =
        { sent := (stats.sent + response.length % 2 ^ p.size_bits) % 2 ^ p.size_bits,
          received := (stats.received + n) % 2 ^ p.size_bits,
          requests := (stats.requests + 1) % 2 ^ p.fast32_bits,
          responses := (stats.responses + 1) % 2 ^ p.fast32_bits } ∧
      (accept p stats n headers response written opened).sent_reply.body = response ∧
      (accept p stats n headers response written opened).sent_reply.status = 200 := by
  refine ⟨?_, rfl, rfl⟩
  simp only [accept, record_exchange_request, record_exchange_response]

theorem exchange_recorded_of_reject (p : platform) (stats : session_stats) (n : Nat)
    (headers : List (String × String)) (status : Nat) (written : Option (List Nat))
    (opened : Bool) :
    exchange_recorded p stats n
      (reject p stats (n % 2 ^ p.size_bits) headers status written opened) := by
  obtain ⟨h1, h2, h3⟩ :=
    reject_stats p stats (n % 2 ^ p.size_bits) headers status written opened
  simp only [exchange_recorded, h1, h2, List.length_nil, Nat.add_mod_mod, true_and]
  intro _
  trivial

theorem exchange_recorded_of_accept (p : platform) (stats : session_stats) (n : Nat)
    (headers : List (String × String)) (response : List Nat) (written : Option (List Nat))
    (opened : Bool) :
    exchange_recorded p stats n
      (accept p stats (n % 2 ^ p.size_bits) headers response written opened) := by
  obtain ⟨h1, h2, h3⟩ :=
    accept_stats p stats (n % 2 ^ p.size_bits) headers response written opened
  simp only [exchange_recorded, h1, h2, h3, Nat.add_mod_mod, true_and]
  intro hne
  exact absurd rfl hne

/-- C4 (behaviour of the code): for every PUT request with an empty body,
whatever its target, `handle_request` calls `use_empty_response(req, 400)`,
whose `switch` has no case 400: the reply sent has status 500 and reason
`Internal Error`, not status 400. -/
theorem empty_put_replies_500 (p : platform) (env : environment) (stats : session_stats)
    (uri : List Char) :
    (handle_request p env stats { method := .PUT, uri := uri, input := [] }).sent_reply.status
        = 500 ∧
      (handle_request p env stats { method := .PUT, uri := uri, input := [] }).sent_reply.reason
        = "Internal Error" ∧
      (use_empty_response p stats 400).2.1 = 500 := by
  simp [handle_request, reject, use_empty_response]

/-- C5 (behaviour of the code): for every GET request whose target after
the first character is `isalive`, the reply has status 200, Content-Type
`text/plain` and Content-Length `4`, but its body is the 5 bytes
`t r u e NUL` copied with `ISALIVE_MESSAGE_LEN = 5`: the body is not the 4
characters `true` and its length differs from the Content-Length sent. -/
theorem isalive_body_has_five_bytes (p : platform) (env : environment) (stats : session_stats)
    (c : Char) (input : List Nat) :
    (handle_request p env stats
        { method := .GET, uri := c :: "isalive".toList, input := input }).sent_reply =
      { status := 200, reason := "OK",
        headers := common_headers ++ [("Content-Type", "text/plain"), ("Content-Length", "4")],
        body := [116, 114, 117, 101, 0] } ∧
      (handle_request p env stats
        { method := .GET, uri := c :: "isalive".toList, input := input }).sent_reply.body.length
        = 5 := by
  simp [handle_request, accept, evbuffer_add, ISALIVE_MESSAGE, ISALIVE_MESSAGE_LEN, c_string]

theorem get_file_reply (p : platform) (env : environment) (stats : session_stats)
    (req : evhttp_request) (hget : req.method = .GET)
    (hfiles : strncmp_eq (req.uri.drop 1) "files/".toList FILEDIR_LEN = true)
    (hread : env.readable = true) (hseg : env.add_file_segment_fails = false) :
    (handle_request p env stats req).sent_reply =
      { status := 200, reason := "OK",
        headers := common_headers ++
          [("Content-Type", "text/plain"),
           ("Content-Length", get_filesize_as_string p env.file.length)],
        body := env.file } := by
  have htarget : (match req.uri with | [] => [] | _ :: rest => rest) = req.uri.drop 1 := by
    cases req.uri <;> rfl
  have hnot : req.uri.drop 1 ≠ "isalive".toList := by
    intro heq
    rw [heq] at hfiles
    revert hfiles
    decide
  simp only [handle_request, htarget, hget, hnot, hfiles, hread, hseg, accept,
    if_true, if_false, Bool.not_true]
  simp

/-- C6 (behaviour of the code): for a file of 10^7 bytes
`get_filesize_as_string` yields `1000000`, the first 7 digits that fit the
buffer of `FILESIZE_STRING_MAX_LENGTH = 8` bytes, which is not the decimal
representation `10000000`; the reply to `GET /files/big` for a readable
file of 10^7 bytes has status 200, the Content-Length `1000000` and the
whole file, 10^7 bytes, as body. -/
theorem get_filesize_as_string_truncates :
    get_filesize_as_string lp64 10000000 = "1000000" ∧
      get_filesize_as_string lp64 10000000 ≠ Nat.repr 10000000 ∧
      (∀ (stats : session_stats) (input : List Nat),
        (handle_request lp64
            { readable := true, file := List.replicate 10000000 0,
              add_file_segment_fails := false, fopen_write_fails := false,
              write_fails := false }
            stats { method := .GET, uri := "/files/big".toList, input := input }).sent_reply =
          { status := 200, reason := "OK",
            headers := common_headers ++
              [("Content-Type", "text/plain"), ("Content-Length", "1000000")],
            body := List.replicate 10000000 0 }) ∧
      (List.replicate 10000000 (0 : Nat)).length = 10000000 := by
  have hvalue : get_filesize_as_string lp64 10000000 = "1000000" := by decide
  refine ⟨hvalue, by decide, ?_, List.length_replicate _ _⟩
  intro stats input
  have hfiles :
      strncmp_eq ("/files/big".toList.drop 1) "files/".toList FILEDIR_LEN = true := by
    decide
  rw [get_file_reply lp64 _ stats _ rfl hfiles rfl rfl]
  simp only [List.length_replicate, hvalue]

/-- Where the buffer suffices: for every file size `n` below 10^7 the value
produced by `get_filesize_as_string` is the decimal representation of `n`,
and a GET of a readable file of `n` bytes under `files/` is answered with
status 200, that value as Content-Length and the bytes of the file as
body. -/
theorem get_filesize_as_string_small (p : platform) (n : Nat)
    (h : n < 10 ^ (FILESIZE_STRING_MAX_LENGTH - 1)) :
    get_filesize_as_string p n = Nat.repr n ∧
      ∀ (env : environment) (stats : session_stats) (req : evhttp_request),
        req.method = .GET → strncmp_eq (req.uri.drop 1) "files/".toList FILEDIR_LEN = true →
        env.readable = true → env.add_file_segment_fails = false → env.file.length = n →
        (handle_request p env stats req).sent_reply =
          { status := 200, reason := "OK",
            headers := common_headers ++
              [("Content-Type", "text/plain"), ("Content-Length", Nat.repr n)],
            body := env.file } := by
  have hsize : n < 2 ^ p.size_bits := by
    have h1 : (2 : Nat) ^ 32 ≤ 2 ^ p.size_bits :=
      Nat.pow_le_pow_right (by decide) p.size_bits_ge
    simp only [FILESIZE_STRING_MAX_LENGTH] at h
    have h2 : (10 : Nat) ^ (8 - 1) < 2 ^ 32 := by decide
    omega
  have hlen : (Nat.toDigits 10 n).length ≤ 7 :=
    Nat.toDigitsCore_length 10 (by decide) (n + 1) n 7 h (by decide)
  have hstr : get_filesize_as_string p n = Nat.repr n := by
    simp only [get_filesize_as_string, snprintf_zu, FILESIZE_STRING_MAX_LENGTH,
      Nat.mod_eq_of_lt hsize, Nat.repr, List.asString]
    rw [List.take_of_length_le hlen]
  refine ⟨hstr, ?_⟩
  intro env stats req hget hfiles hread hseg hfile
  have htarget : (match req.uri with | [] => [] | _ :: rest => rest) = req.uri.drop 1 := by
    cases req.uri <;> rfl
  have hnot : req.uri.drop 1 ≠ "isalive".toList := by
    intro heq
    rw [heq] at hfiles
    revert hfiles
    decide
  simp only [handle_request, htarget, hget, hnot, hfiles, hread, hseg, hfile, hstr, accept,
    if_true, if_false, Bool.not_true]
  simp

/-- A file holding `hello` is served with Content-Length `5`. -/
theorem get_filesize_as_string_small_witness :
    5 < 10 ^ (FILESIZE_STRING_MAX_LENGTH - 1) ∧
      get_filesize_as_string lp64 5 = Nat.repr 5 ∧
      (handle_request lp64
          { readable := true, file := [104, 101, 108, 108, 111],
            add_file_segment_fails := false, fopen_write_fails := false, write_fails := false }
          { sent := 0, received := 0, requests := 0, responses := 0 }
          { method := .GET, uri := "/files/a.txt".toList, input := [] }).sent_reply =
        { status := 200, reason := "OK",
          headers := common_headers ++
            [("Content-Type", "text/plain"), ("Content-Length", Nat.repr 5)],
          body := [104, 101, 108, 108, 111] } :=
  ⟨by decide,
   (get_filesize_as_string_small lp64 5 (by decide)).1,
   (get_filesize_as_string_small lp64 5 (by decide)).2 _ _ _ rfl (by decide) rfl rfl rfl⟩

/-- C8: for every request, every answer of the environment and every prior
statistics state, one call of `handle_request` adds 1 to `requests`, the
body length `n` to `received`, 1 to `responses` and the length of the
response body to `sent` (in the unsigned arithmetic of the counters), and
the response body is empty whenever the status is not 200. -/
theorem handle_request_records_exchange (p : platform) (env : environment)
    (stats : session_stats) (req : evhttp_request) :
    (handle_request p env stats req).stats.requests
        = (stats.requests + 1) % 2 ^ p.fast32_bits ∧
      (handle_request p env stats req).stats.received
        = (stats.received + req.input.length) % 2 ^ p.size_bits ∧
      (handle_request p env stats req).stats.responses
        = (stats.responses + 1) % 2 ^ p.fast32_bits ∧
      (handle_request p env stats req).stats.sent
        = (stats.sent + (handle_request p env stats req).sent_reply.body.length)
            % 2 ^ p.size_bits ∧
      ((handle_request p env stats req).sent_reply.status ≠ 200 →
        (handle_request p env stats req).sent_reply.body = []) := by
  have hall : exchange_recorded p stats req.input.length (handle_request p env stats req) := by
    simp only [handle_request]
    split_ifs <;>
      first
        | exact exchange_recorded_of_reject _ _ _ _ _ _ _
        | exact exchange_recorded_of_accept _ _ _ _ _ _ _
  exact hall

/-! ## Session statistics -/

theorem run_ops_cons (p : platform) (s : session_stats) (op : atomic_op) (ops : List atomic_op) :
    run_ops p s (op :: ops) = run_ops p (atomic_fetch_add p s op) ops := by
  simp [run_ops]

theorem run_ops_append (p : platform) (s : session_stats) (xs ys : List atomic_op) :
    run_ops p s (xs ++ ys) = run_ops p (run_ops p s xs) ys := by
  simp [run_ops]

theorem record_requests_eq_run_ops (p : platform) (s : session_stats) (bs : List Nat) :
    record_requests p s bs = run_ops p s (bs.flatMap (record_exchange_ops true)) := by
  induction bs generalizing s with
  | nil => simp [record_requests, run_ops]
  | cons b bs ih =>
    have hstep : record_requests p s (b :: bs)
        = record_requests p (record_exchange p true b s) bs := by
      simp [record_requests]
    rw [hstep, ih, List.flatMap_cons, run_ops_append]
    rfl

theorem run_ops_requests_mod (p : platform) (s : session_stats) (ops : List atomic_op) :
    (run_ops p s ops).requests % 2 ^ p.fast32_bits =
      (s.requests + (ops.map requests_added).sum) % 2 ^ p.fast32_bits := by
  induction ops generalizing s with
  | nil => simp [run_ops]
  | cons op ops ih =>
    rw [run_ops_cons, ih]
    cases op <;>
      simp [atomic_fetch_add, requests_added, Nat.add_assoc, Nat.add_mod_mod, Nat.mod_add_mod]

theorem run_ops_requests_lt (p : platform) (s : session_stats) (ops : List atomic_op)
    (h : s.requests < 2 ^ p.fast32_bits) : (run_ops p s ops).requests < 2 ^ p.fast32_bits := by
  induction ops generalizing s with
  | nil => simpa [run_ops] using h
  | cons op ops ih =>
    rw [run_ops_cons]
    apply ih
    have hpos : 0 < 2 ^ p.fast32_bits := Nat.pow_pos (by decide)
    cases op <;> simp [atomic_fetch_add, h, Nat.mod_lt _ hpos]

theorem run_ops_request_ops (p : platform) (s : session_stats) (ops : List atomic_op)
    (h : ∀ op ∈ ops, is_request_op op = true) :
    (run_ops p s ops).responses = s.responses ∧ (run_ops p s ops).sent = s.sent := by
  induction ops generalizing s with
  | nil => simp [run_ops]
  | cons op ops ih =>
    rw [run_ops_cons]
    have h1 := ih (atomic_fetch_add p s op) (fun x hx => h x (by simp [hx]))
    have h2 := h op (by simp)
    cases op <;> simp_all [atomic_fetch_add, is_request_op]

theorem requests_added_sum (bs : List Nat) :
    ((bs.flatMap (record_exchange_ops true)).map requests_added).sum = bs.length := by
  induction bs with
  | nil => simp
  | cons b bs ih =>
    simp only [List.flatMap_cons, List.map_append, List.sum_append, ih, List.length_cons]
    simp [record_exchange_ops, requests_added]
    omega

theorem request_ops_of_bind (bs : List Nat) :
    ∀ op ∈ bs.flatMap (record_exchange_ops true), is_request_op op = true := by
  intro op hop
  simp only [List.mem_flatMap, record_exchange_ops, if_true] at hop
  obtain ⟨b, _, hb⟩ := hop
  simp at hb
  rcases hb with rfl | rfl <;> rfl

/-- C9: from the state set by `init_session_logging`, for all byte counts
`B` and `C` (values of `size_t`), `record_exchange(true, B)` followed by
`record_exchange(false, C)` leaves `requests == 1`, `received == B`,
`responses == 1`, `sent == C`; and for `T` calls `record_exchange(true, _)`
with any byte counts, run one after another or with their atomic operations
interleaved in any order, `requests` ends as `T` modulo the counter width
while `responses` and `sent` stay 0. -/
theorem stats_after_recordings (p : platform) (s0 : session_stats) (B C : Nat)
    (hB : B < 2 ^ p.size_bits) (hC : C < 2 ^ p.size_bits)
    (bs : List Nat) (schedule : List atomic_op)
    (hs : schedule.Perm (bs.flatMap (record_exchange_ops true))) :
    record_exchange p false C (record_exchange p true B (init_session_logging s0)) =
        { sent := C, received := B, requests := 1, responses := 1 } ∧
      ((record_requests p (init_session_logging s0) bs).requests
          = bs.length % 2 ^ p.fast32_bits ∧
        (record_requests p (init_session_logging s0) bs).responses = 0 ∧
        (record_requests p (init_session_logging s0) bs).sent = 0) ∧
      ((run_ops p (init_session_logging s0) schedule).requests
          = bs.length % 2 ^ p.fast32_bits ∧
        (run_ops p (init_session_logging s0) schedule).responses = 0 ∧
        (run_ops p (init_session_logging s0) schedule).sent = 0) := by
  have hpos : 0 < 2 ^ p.fast32_bits := Nat.pow_pos (by decide)
  have hone : 1 < 2 ^ p.fast32_bits := by
    have h1 : (2 : Nat) ^ 32 ≤ 2 ^ p.fast32_bits :=
      Nat.pow_le_pow_right (by decide) p.fast32_bits_ge
    have h2 : 1 < (2 : Nat) ^ 32 := by decide
    omega
  have hsched : ∀ ops : List atomic_op, ops.Perm (bs.flatMap (record_exchange_ops true)) →
      (run_ops p (init_session_logging s0) ops).requests = bs.length % 2 ^ p.fast32_bits ∧
      (run_ops p (init_session_logging s0) ops).responses = 0 ∧
      (run_ops p (init_session_logging s0) ops).sent = 0 := by
    intro ops hperm
    have hlt := run_ops_requests_lt p (init_session_logging s0) ops
      (by simp [init_session_logging])
    have hmod := run_ops_requests_mod p (init_session_logging s0) ops
    rw [Nat.mod_eq_of_lt hlt, (hperm.map requests_added).sum_eq, requests_added_sum] at hmod
    have hother := run_ops_request_ops p (init_session_logging s0) ops
      (fun op hop => request_ops_of_bind bs op (hperm.subset hop))
    refine ⟨?_, ?_, ?_⟩
    · simpa [init_session_logging] using hmod
    · simpa [init_session_logging] using hother.1
    · simpa [init_session_logging] using hother.2
  refine ⟨?_, ?_, hsched schedule hs⟩
  · simp [record_exchange_request, record_exchange_response, init_session_logging,
      Nat.mod_eq_of_lt hB, Nat.mod_eq_of_lt hC, Nat.mod_eq_of_lt hone]
  · rw [record_requests_eq_run_ops]
    exact hsched _ (List.Perm.refl _)

/-- On LP64: a request of 10 bytes and a response of 20 bytes, and three
workers whose six atomic operations are interleaved. -/
theorem stats_after_recordings_witness :
    (10 < 2 ^ lp64.size_bits ∧ 20 < 2 ^ lp64.size_bits) ∧
      record_exchange lp64 false 20 (record_exchange lp64 true 10
          (init_session_logging { sent := 7, received := 7, requests := 7, responses := 7 })) =
        { sent := 20, received := 10, requests := 1, responses := 1 } ∧
      (run_ops lp64
          (init_session_logging { sent := 7, received := 7, requests := 7, responses := 7 })
          [.add_requests 1, .add_requests 1, .add_received 5, .add_requests 1,
           .add_received 9, .add_received 2]).requests = 3 :=
  ⟨by decide,
   (stats_after_recordings lp64 { sent := 7, received := 7, requests := 7, responses := 7 }
      10 20 (by decide) (by decide) [5, 2, 9]
      [.add_requests 1, .add_requests 1, .add_received 5, .add_requests 1,
       .add_received 9, .add_received 2] (by decide)).1,
   (stats_after_recordings lp64 { sent := 7, received := 7, requests := 7, responses := 7 }
      10 20 (by decide) (by decide) [5, 2, 9]
      [.add_requests 1, .add_requests 1, .add_received 5, .add_requests 1,
       .add_received 9, .add_received 2] (by decide)).2.2.1⟩

/-! ## Thread creation in `main` -/

theorem create_threads_none (create : Nat → Int) (n i : Nat)
    (h : ∀ j, i ≤ j → j < i + n → create j = 0) : create_threads create n i = none := by
  induction n generalizing i with
  | zero => rfl
  | succ n ih =>
    have h0 : create i = 0 := h i (Nat.le_refl i) (by omega)
    simp only [create_threads, h0, bne_self_eq_false, Bool.false_eq_true, if_false]
    exact ih (i + 1) (fun j h1 h2 => h j (by omega) (by omega))

theorem create_threads_some (create : Nat → Int) (n i k : Nat)
    (h : create_threads create n i = some k) : i ≤ k ∧ k < i + n ∧ create k ≠ 0 := by
  induction n generalizing i with
  | zero => simp [create_threads] at h
  | succ n ih =>
    simp only [create_threads] at h
    by_cases h0 : create i = 0
    · simp only [h0, bne_self_eq_false, Bool.false_eq_true, if_false] at h
      have := ih (i + 1) h
      omega
    · have hne : (create i != 0) = true := by simpa using h0
      simp only [hne, if_true, Option.some.injEq] at h
      subst h
      exact ⟨Nat.le_refl _, by omega, h0⟩

/-- C7 (behaviour of the code): the test `!init_threads(threads)` in `main`
is inverted. Whenever every `pthread_create` succeeds and the pool reports
ready, `init_threads` returns 0 and `main` returns -1 without dispatching;
whenever a `pthread_create` fails, at index `k`, `init_threads` returns -1
and `main` goes on with the `k` threads created so far, dispatching the
event loop unless the run is dry, and returns 0. -/
theorem main_thread_creation_inverted :
    (∀ (pool_size : Int) (dry : Bool) (create : Nat → Int) (ready_counts : List Int),
        (∀ j, j < pool_size.toNat → create j = 0) →
        wait_pool_ready pool_size ready_counts = true →
        main_from_thread_creation pool_size dry create ready_counts
          = .returned (-1) false pool_size.toNat) ∧
      (∀ (pool_size : Int) (dry : Bool) (create : Nat → Int) (ready_counts : List Int)
          (k : Nat),
        create_threads create pool_size.toNat 0 = some k →
        (k < pool_size.toNat ∧ create k ≠ 0) ∧
        main_from_thread_creation pool_size dry create ready_counts
          = .returned 0 (!dry) k) ∧
      main_from_thread_creation 7 false (fun _ => 0) [3, 7] = .returned (-1) false 7 ∧
      main_from_thread_creation 7 false (fun i => if i = 3 then 11 else 0) [] =
        .returned 0 true 3 := by
  refine ⟨?_, ?_, by decide, by decide⟩
  · intro pool_size dry create ready_counts hcreate hready
    have hnone := create_threads_none create pool_size.toNat 0
      (fun j _ hj => hcreate j (by omega))
    simp [main_from_thread_creation, init_threads, hnone, hready]
  · intro pool_size dry create ready_counts k hsome
    have hk := create_threads_some create pool_size.toNat 0 k hsome
    refine ⟨⟨by omega, hk.2.2⟩, ?_⟩
    cases dry <;> simp [main_from_thread_creation, init_threads, hsome]

/-! ## The worker -/

theorem worker_step_on_exit_path (g : shared) (w : worker)
    (hq : g.quit_requested = true) (hpc : exit_path w.pc = true) :
    (worker_step g w).1 = g ∧
      exit_path (worker_step g w).2.pc = true ∧
      exit_rank (worker_step g w).2.pc ≤ exit_rank w.pc - 1 ∧
      (worker_step g w).2.thread_request = w.thread_request ∧
      (worker_step g w).2.trace.filter claims_or_serves = w.trace.filter claims_or_serves := by
  obtain ⟨pc, init_done, thread_request, held, trace⟩ := w
  cases pc <;> simp only [exit_path, Bool.false_eq_true] at hpc
  · by_cases hav : request_available g.queue = true <;>
      simp [worker_step, hq, hav, exit_path, exit_rank]
  · by_cases hav : request_available g.queue = true <;>
      simp [worker_step, hq, hav, exit_path, exit_rank]
  all_goals
    simp [worker_step, do_unlock, hq, exit_path, exit_rank, claims_or_serves]

theorem worker_run_on_exit_path (n : Nat) (g : shared) (w : worker)
    (hq : g.quit_requested = true) (hpc : exit_path w.pc = true) :
    (worker_run n (g, w)).1 = g ∧
      exit_path (worker_run n (g, w)).2.pc = true ∧
      exit_rank (worker_run n (g, w)).2.pc ≤ exit_rank w.pc - n ∧
      (worker_run n (g, w)).2.thread_request = w.thread_request ∧
      (worker_run n (g, w)).2.trace.filter claims_or_serves
        = w.trace.filter claims_or_serves := by
  induction n generalizing w with
  | zero => simp [worker_run, hpc]
  | succ n ih =>
    obtain ⟨h1, h2, h3, h4, h5⟩ := worker_step_on_exit_path g w hq hpc
    have hstep : worker_step g w = (g, (worker_step g w).2) :=
      Prod.ext h1 rfl
    simp only [worker_run]
    rw [hstep]
    obtain ⟨i1, i2, i3, i4, i5⟩ := ih (worker_step g w).2 h2
    refine ⟨i1, i2, by omega, by rw [i4, h4], by rw [i5, h5]⟩

theorem exit_rank_zero (l : label) (hpc : exit_path l = true) (h : exit_rank l = 0) :
    l = .L87 := by
  cases l <;> simp_all [exit_path, exit_rank]

/-- C10: a worker that has woken with `quit_requested` set, standing at the
wake-up test (line 69), the loop condition (line 59), the unlock of line 72
or the test of line 73 (`if (quit_requested) break`), whatever the buffer
holds, leaves its loop and returns: after any number of its steps the
shared state (buffer contents and `top` included) is as before, its claimed
request is as before, its trace has no further pop or `handle_request`, it
is never at the pop or at the call of `handle_request`, and it has returned
after at most 5 steps (2 steps from line 73). -/
theorem worker_quits_without_claiming (g : shared) (w : worker)
    (hq : g.quit_requested = true)
    (hpc : w.pc = .L73 ∨ w.pc = .L72 ∨ w.pc = .L59 ∨ w.pc = .L69) (n : Nat) :
    (worker_run n (g, w)).1 = g ∧
      (worker_run n (g, w)).2.thread_request = w.thread_request ∧
      (worker_run n (g, w)).2.trace.filter claims_or_serves
        = w.trace.filter claims_or_serves ∧
      ((worker_run n (g, w)).2.pc ≠ .L76 ∧ (worker_run n (g, w)).2.pc ≠ .L82) ∧
      (exit_rank w.pc ≤ n → (worker_run n (g, w)).2.pc = .L87) ∧
      (w.pc = .L73 → 2 ≤ n → (worker_run n (g, w)).2.pc = .L87) := by
  have hexit : exit_path w.pc = true := by
    rcases hpc with h | h | h | h <;> rw [h] <;> rfl
  obtain ⟨h1, h2, h3, h4, h5⟩ := worker_run_on_exit_path n g w hq hexit
  have hdone : exit_rank w.pc ≤ n → (worker_run n (g, w)).2.pc = .L87 := by
    intro hn
    apply exit_rank_zero _ h2
    omega
  refine ⟨h1, h4, h5, ⟨?_, ?_⟩, hdone, ?_⟩
  · intro h76
    rw [h76] at h2
    exact absurd h2 (by decide)
  · intro h82
    rw [h82] at h2
    exact absurd h2 (by decide)
  · intro h73 hn
    apply hdone
    rw [h73]
    exact hn

/-- A worker at line 73 at shutdown while three requests are pending: after
two steps it has returned and the buffer still holds the three requests. -/
theorem worker_quits_without_claiming_witness :
    ((true = true) ∧
        (label.L73 = label.L73 ∨ label.L73 = label.L72 ∨ label.L73 = label.L59 ∨
          label.L73 = label.L69)) ∧
      (worker_run 2
        ({ queue := (enqueue_all queue_init [1, 2, 3]).1, quit_requested := true,
           pool_ready_count := 1 },
         { pc := .L73, init_done := true, thread_request := NULL, held := [],
           trace := [] })).2.pc = .L87 ∧
      (worker_run 2
        ({ queue := (enqueue_all queue_init [1, 2, 3]).1, quit_requested := true,
           pool_ready_count := 1 },
         { pc := .L73, init_done := true, thread_request := NULL, held := [],
           trace := [] })).1.queue.top = 2 :=
  ⟨⟨rfl, Or.inl rfl⟩,
   (worker_quits_without_claiming
      { queue := (enqueue_all queue_init [1, 2, 3]).1, quit_requested := true,
        pool_ready_count := 1 }
      { pc := .L73, init_done := true, thread_request := NULL, held := [], trace := [] }
      rfl (Or.inl rfl) 2).2.2.2.2.1 (by decide),
   by rw [(worker_quits_without_claiming
      { queue := (enqueue_all queue_init [1, 2, 3]).1, quit_requested := true,
        pool_ready_count := 1 }
      { pc := .L73, init_done := true, thread_request := NULL, held := [], trace := [] }
      rfl (Or.inl rfl) 2).1]; decide⟩


/-! ## Lock discipline of the worker -/

theorem worker_step_unlock (g : shared) (w : worker) (m : mutex)
    (h : unlocked_at w.pc = some m) :
    (worker_step g w).2.trace = .unlock m :: w.trace ∧
      (worker_step g w).2.held = w.held.erase m := by
  obtain ⟨pc, init_done, thread_request, held, trace⟩ := w
  cases pc <;> simp [unlocked_at] at h <;> subst h <;>
    simp [worker_step, do_unlock]

theorem worker_step_held (g : shared) (w : worker) (h : w.held = held_at w.pc) :
    (worker_step g w).2.held = held_at (worker_step g w).2.pc := by
  obtain ⟨pc, init_done, thread_request, held, trace⟩ := w
  simp only at h
  subst h
  cases pc
  case L59 => cases hq : g.quit_requested <;> simp [worker_step, hq, held_at]
  case L61 => cases init_done <;> simp [worker_step, held_at]
  case L69 => cases hav : request_available g.queue <;> simp [worker_step, hav, held_at]
  case L73 => cases hq : g.quit_requested <;> simp [worker_step, hq, held_at]
  all_goals simp [worker_step, do_lock, do_unlock, held_at]

theorem worker_reachable_held (w : worker) (h : worker_reachable w) :
    w.held = held_at w.pc := by
  induction h with
  | init => rfl
  | step g w _ ih => exact worker_step_held g w ih

theorem worker_run_reachable (n : Nat) (g : shared) (w : worker) (h : worker_reachable w) :
    worker_reachable (worker_run n (g, w)).2 := by
  induction n generalizing g w with
  | zero => exact h
  | succ n ih =>
    simp only [worker_run]
    exact ih _ _ (worker_reachable.step g w h)

/-- C11 (behaviour of the code): in every state a worker reaches, the
mutexes it holds are those of `held_at` for its program point. Hence the
`pthread_mutex_unlock` of lines 66, 72 and 79 are applied to a mutex the
worker holds and the worker holds no mutex when it returns, but the
`pthread_mutex_unlock(&active_request_lock)` of line 86 never is: a worker
started at shutdown locks and unlocks `request_pending_lock`, arrives at
line 86 holding no mutex and unlocks `active_request_lock`, which it never
locked. -/
theorem worker_unlocks_unheld_active_request_lock :
    (∀ w, worker_reachable w → w.held = held_at w.pc) ∧
      (∀ w m, worker_reachable w → unlocked_at w.pc = some m →
        (m ∈ w.held ↔ w.pc ≠ .L86)) ∧
      (∀ w, worker_reachable w → w.pc = .L87 → w.held = []) ∧
      (∀ w g, worker_reachable w → w.pc = .L86 →
        mutex.active_request_lock ∉ w.held ∧
        (worker_step g w).2.trace = .unlock .active_request_lock :: w.trace) ∧
      worker_reachable (worker_run 4 (shared_at_shutdown, worker_init)).2 ∧
      (worker_run 4 (shared_at_shutdown, worker_init)).2.pc = .L86 ∧
      (worker_run 4 (shared_at_shutdown, worker_init)).2.held = [] ∧
      (worker_run 5 (shared_at_shutdown, worker_init)).2.pc = .L87 ∧
      (worker_run 5 (shared_at_shutdown, worker_init)).2.trace =
        [.unlock .active_request_lock, .unlock .request_pending_lock,
         .lock .request_pending_lock] := by
  refine ⟨worker_reachable_held, ?_, ?_, ?_,
    worker_run_reachable 4 _ _ worker_reachable.init, by decide, by decide, by decide,
    by decide⟩
  · intro w m hw hm
    have hheld := worker_reachable_held w hw
    obtain ⟨pc, init_done, thread_request, held, trace⟩ := w
    simp only at hheld hm ⊢
    subst hheld
    cases pc <;> simp [unlocked_at] at hm <;> subst hm <;>
      simp [held_at]
  · intro w hw hpc
    rw [worker_reachable_held w hw, hpc]
    rfl
  · intro w g hw hpc
    refine ⟨?_, (worker_step_unlock g w _ (by rw [hpc]; rfl)).1⟩
    rw [worker_reachable_held w hw, hpc]
    simp [held_at]

end Mdus
